import Mathlib

set_option autoImplicit false

namespace EndoFactory

/-! # Tabular data model

A shallow embedding of the Polars data frames manipulated by EndoFactory.
A cell value is `Option String` (`none` models null), a row is an association
list from column name to value, and a frame carries its column list. -/

/-- A cell value; `none` models a null entry. -/
abbrev Val := Option String

/-- A row: an association list from column name to cell value. -/
abbrev Row := List (String × Val)

/-- Look a column up in a row; a missing column reads as null. -/
def getCol : Row → String → Val
  | [], _ => none
  | p :: r, c => if p.1 = c then p.2 else getCol r c

/-- A tabular dataset: a column list together with its rows. -/
structure DF where
  columns : List String
  rows : List Row
deriving DecidableEq

/-! # Configuration models (embedded from src/endofactory/config.py) -/

/-- Configuration errors raised by the pydantic validators of config.py. -/
inductive CfgError where
  | weightNotPositive
  | missingSource
  | subtaskSumNotOne (task : String)
  | invalidFormat
  | extraField (key : String)
  | imagesRootRequired
deriving DecidableEq

/-- One entry of a `columns` list: either a bare column name or a one-entry
rename mapping, mirroring `Union[str, Dict[str, str]]` in config.py. -/
inductive ColSpec where
  | bare (name : String)
  | rename (src tgt : String)
deriving DecidableEq

/-- Embeds `DatasetConfig` from config.py: one dataset source descriptor.
Paths are modelled as strings. -/
structure DatasetConfig where
  name : String
  image_path : String
  parquet_path : Option String := none
  json_dir : Option String := none
  dataset_prefix : Option String := none
  auto_absolute_path : Option Bool := some true
  weight : ℚ := 1
  columns : Option (List ColSpec) := none
deriving DecidableEq

/-- Embeds the `weight_must_be_positive` field validator of `DatasetConfig`. -/
def weight_must_be_positive (v : ℚ) : Except CfgError ℚ :=
  if v ≤ 0 then .error CfgError.weightNotPositive else .ok v

/-- Embeds the `_check_source` model validator of `DatasetConfig`: it raises
exactly when both `parquet_path` and `json_dir` are absent. -/
def check_source (c : DatasetConfig) : Except CfgError DatasetConfig :=
  if c.parquet_path = none ∧ c.json_dir = none then .error CfgError.missingSource
  else .ok c

/-- Full validation of a `DatasetConfig`: the field validator on `weight`
followed by the `_check_source` model validator. -/
def validateDatasetConfig (c : DatasetConfig) : Except CfgError DatasetConfig :=
  match weight_must_be_positive c.weight with
  | .error e => .error e
  | .ok _ => check_source c

/-- Embeds `TaskProportionConfig` from config.py.  Mappings are modelled as
association lists and fractions as rationals. -/
structure TaskProportionConfig where
  task_proportions : List (String × ℚ) := []
  subtask_proportions : List (String × List (String × ℚ)) := []
deriving DecidableEq

/-- Sum of the fractions of one subtask family. -/
def famSum (fam : String × List (String × ℚ)) : ℚ :=
  (fam.2.map Prod.snd).sum

/-- Whether `_check_proportions` raises for one subtask family: the family is
non-empty and its fractions do not sum to 1 within 1e-6. -/
def famViolates (fam : String × List (String × ℚ)) : Bool :=
  decide (fam.2 ≠ [] ∧ 1 / 1000000 < |famSum fam - 1|)

/-- Embeds the `_check_proportions` model validator of `TaskProportionConfig`:
no sum constraint on `task_proportions`; each non-empty subtask family must
sum to 1 within 1e-6. -/
def check_proportions (c : TaskProportionConfig) : Except CfgError TaskProportionConfig :=
  match c.subtask_proportions.find? famViolates with
  | some fam => .error (CfgError.subtaskSumNotOne fam.1)
  | none => .ok c

/-- Embeds `ExportConfig` from config.py. -/
structure ExportConfig where
  output_path : String
  format : String := "parquet"
  include_absolute_paths : Bool := true
deriving DecidableEq

/-- Embeds the `format_must_be_valid` field validator of `ExportConfig`. -/
def format_must_be_valid (v : String) : Except CfgError String :=
  if v = "parquet" ∨ v = "json" ∨ v = "jsonl" then .ok v
  else .error CfgError.invalidFormat

/-- The two image-path construction modes of `InputConfig.image_path_mode`. -/
inductive ImagePathMode where
  | join_id
  | use_existing
deriving DecidableEq

/-- Embeds `InputConfig` from config.py (raw-ingestion configuration). -/
structure InputConfig where
  inputset : String := "ColonGPT"
  json_dir : String
  images_root : Option String := none
  dataset_prefix : Option String := none
  add_uuid : Option Bool := some false
  auto_absolute_path : Option Bool := some true
  image_path_mode : Option ImagePathMode := none
deriving DecidableEq

/-- Embeds the `_infer_and_validate_paths` model validator of `InputConfig`:
when `image_path_mode` is absent it is inferred from `auto_absolute_path`
(`join_id` exactly when the flag is literally `True`), and `images_root` is
required whenever the resulting mode is `join_id`. -/
def infer_and_validate_paths (c : InputConfig) : Except CfgError InputConfig :=
  let inferred : ImagePathMode :=
    if c.auto_absolute_path = some true then ImagePathMode.join_id
    else ImagePathMode.use_existing
  let c' : InputConfig :=
    if c.image_path_mode = none then { c with image_path_mode := some inferred }
    else c
  if c'.image_path_mode = some ImagePathMode.join_id ∧ c'.images_root = none then
    .error CfgError.imagesRootRequired
  else .ok c'

/-- Embeds `IngestOutputConfig` from config.py. -/
structure IngestOutputConfig where
  parquet_path : String
  dataset_name : String := "ColonGPT"
deriving DecidableEq

/-- The declared field names of `EndoFactoryConfig` in config.py. -/
def endoFactoryFieldNames : List String :=
  ["datasets", "columns", "task_proportions", "export", "seed",
   "listify_columns", "input", "ingest_output", "num_workers",
   "categorical_columns"]

/-- Embeds the effect of `model_config = ConfigDict(extra='forbid')` on
`EndoFactoryConfig`: building the model from a mapping fails on the first key
that is not a declared field. -/
def checkExtraKeys (keys : List String) : Except CfgError Unit :=
  match keys.find? (fun k => !(endoFactoryFieldNames.contains k)) with
  | some k => .error (CfgError.extraField k)
  | none => .ok ()

/-! # Core mixing engine (modelled from the spec)

The repository's `endofactory/core.py` (the `EndoFactoryEngine` with its
loader, path resolver, weighted resampling, schema reconciliation and
proportion sampler) is not in the tree; only its tests and the configuration
schema are.  The definitions below are therefore modelled from the
specification's description of those components. -/

/-- Rounding used for resampling targets: `round(n * w)` on exact rationals,
implemented by integer arithmetic as `floor(n * w + 1/2)`; the theorem
`roundMul_eq_floor` below characterizes it in floor form.  Only positive
weights reach this function. -/
def roundMul (n : ℕ) (w : ℚ) : ℕ :=
  (2 * n * w.num.toNat + w.den) / (2 * w.den)

/-- Modelled from the spec: seeded without-replacement sampling of `k` rows
(missing from src, used by the Proportion Sampler and the Mixing Engine's
downsampling branch).  The spec fixes only the selected count
`min(k, len(xs))` and the without-replacement property, so the model makes
the deterministic choice of the first `min(k, len(xs))` rows; the seed is
kept in the signature but does not influence which rows satisfy the spec. -/
def sampleWithoutReplacement (_seed : ℕ) (k : ℕ) (xs : List Row) : List Row :=
  xs.take k

/-- Index chosen by the deterministic pseudo-random draw `i` of a
with-replacement sample over `n` rows. -/
def sampleIndex (seed i n : ℕ) : ℕ :=
  (seed + (i + 1) * 2654435761) % n

/-- Modelled from the spec: seeded with-replacement sampling of exactly `k`
rows (missing from src, used by the Mixing Engine's upsampling branch).
Each draw picks a deterministic seed-derived index into `xs`. -/
def sampleWithReplacement (seed k : ℕ) (xs : List Row) : List Row :=
  (List.range k).map (fun i => xs.getD (sampleIndex seed i xs.length) [])

/-- Modelled from the spec: per-source weighted resampling of the Mixing
Engine (missing from src).  `w == 1` is the identity fast path; `w > 1`
upsamples with replacement to `round(n * w)` rows; `0 < w < 1` downsamples
without replacement to `round(n * w)` rows. -/
def resampleByWeight (seed : ℕ) (w : ℚ) (rows : List Row) : List Row :=
  if w = 1 then rows
  else if 1 < w then sampleWithReplacement seed (roundMul rows.length w) rows
  else sampleWithoutReplacement seed (roundMul rows.length w) rows

/-- The provenance column attached by the Mixing Engine. -/
def sourceDatasetCol : String := "source_dataset"

/-- One loaded source as seen by the Mixing Engine: its declared name,
sampling weight, per-source requested columns and loaded frame. -/
structure SourceData where
  name : String
  weight : ℚ
  columns : List String
  df : DF
deriving DecidableEq

/-- The union of the declared requested columns: global ones first, then
each source's own, deduplicated. -/
def unionColumns (globalCols : List String) (sources : List SourceData) : List String :=
  (globalCols ++ sources.flatMap (fun s => s.columns)).dedup

/-- Append the provenance column unless it was already requested. -/
def ensureSourceColumn (cols : List String) : List String :=
  if sourceDatasetCol ∈ cols then cols else cols ++ [sourceDatasetCol]

/-- Tag a row with `source_dataset = name`; consing the binding gives it
overwrite semantics under `getCol`. -/
def tagSource (name : String) (r : Row) : Row :=
  (sourceDatasetCol, some name) :: r

/-- Re-shape a row onto a fixed column list; a column the row does not carry
reads as null. -/
def alignRow (cols : List String) (r : Row) : Row :=
  cols.map (fun c => (c, getCol r c))

/-- The rows one source contributes to the mix: its frame resampled by its
weight, tagged with provenance, and aligned onto the mixed column list. -/
def sourceContribution (seed : ℕ) (cols : List String) (s : SourceData) : List Row :=
  (resampleByWeight seed s.weight s.df.rows).map (fun r => alignRow cols (tagSource s.name r))

/-- Modelled from the spec: `mix_datasets` of the Mixing Engine (missing from
src).  Per-source weighted resampling, provenance tagging, and vertical
concatenation over the union of all requested columns with null-filling. -/
def mixDatasets (seed : ℕ) (globalCols : List String) (sources : List SourceData) : DF :=
  let cols := ensureSourceColumn (unionColumns globalCols sources)
  { columns := cols
    rows := sources.flatMap (sourceContribution seed cols) }

/-- State errors of the engine (usage before the required stage ran). -/
inductive EngineError where
  | noDatasetsLoaded
  | noMixedDataset
deriving DecidableEq

/-- Modelled from the spec: the `EndoFactoryEngine` state that the state
errors are about (missing from src).  `datasets` is empty until `load`
populated it; `mixed` is `none` until a successful mix. -/
structure Engine where
  seed : ℕ
  globalColumns : List String
  datasets : List SourceData := []
  mixed : Option DF := none

/-- Modelled from the spec: the engine's `mix_datasets` entry point (missing
from src); it fails with a state error when invoked before `load` has
populated the per-source datasets. -/
def mix_datasets (e : Engine) : Except EngineError (Engine × DF) :=
  if e.datasets.isEmpty then .error EngineError.noDatasetsLoaded
  else
    let m := mixDatasets e.seed e.globalColumns e.datasets
    .ok ({ e with mixed := some m }, m)

/-- Modelled from the spec: the engine's `export_dataset` entry point
(missing from src); it fails with a state error when no Mixed Dataset
exists yet, and otherwise returns the path written. -/
def export_dataset (e : Engine) (outPath : String) : Except EngineError String :=
  match e.mixed with
  | none => .error EngineError.noMixedDataset
  | some _ => .ok outPath

/-- The task label column. -/
def taskCol : String := "task"

/-- The subtask label column. -/
def subtaskCol : String := "subtask"

/-- The rows of a dataset carrying task label `t`. -/
def taskRows (rows : List Row) (t : String) : List Row :=
  rows.filter (fun r => getCol r taskCol == some t)

/-- The rows of a dataset carrying task label `t` and subtask label `s`. -/
def subtaskRows (rows : List Row) (t s : String) : List Row :=
  rows.filter (fun r => getCol r taskCol == some t && getCol r subtaskCol == some s)

/-- Modelled from the spec: the task-level phase of the Proportion Sampler
(missing from src).  For each declared task label `t` with fraction `p` it
samples `min(round(n * p), count(task == t))` rows without replacement from
that task's rows, where `n` is the full dataset size; labels absent from the
dataset contribute zero rows. -/
def taskPhase (seed : ℕ) (rows : List Row) (props : List (String × ℚ)) : List Row :=
  props.flatMap (fun tp =>
    sampleWithoutReplacement seed (roundMul rows.length tp.2) (taskRows rows tp.1))

/-- Modelled from the spec: the subtask-level phase of the Proportion Sampler
(missing from src).  For each declared pair `(t, s)` with fraction `q` it
samples `min(round(n * q), count(task == t and subtask == s))` rows without
replacement from that pair's rows, `n` again the full dataset size. -/
def subtaskPhase (seed : ℕ) (rows : List Row)
    (props : List (String × List (String × ℚ))) : List Row :=
  props.flatMap (fun fam => fam.2.flatMap (fun sp =>
    sampleWithoutReplacement seed (roundMul rows.length sp.2) (subtaskRows rows fam.1 sp.1)))

/-- Modelled from the spec: `_apply_task_proportions` of the engine (missing
from src): the concatenation, without deduplication, of the task-level and
the subtask-level phases. -/
def apply_task_proportions (seed : ℕ) (rows : List Row) (tp : TaskProportionConfig) : List Row :=
  taskPhase seed rows tp.task_proportions ++ subtaskPhase seed rows tp.subtask_proportions

/-- The image-path column written by the Path Resolver. -/
def imagePathCol : String := "image_path"

/-- The identifier column the Path Resolver prefers. -/
def uuidCol : String := "uuid"

/-- The filename column the Path Resolver falls back to. -/
def filenameCol : String := "filename"

/-- POSIX-style join of an image root (without trailing slash) and a
relative name, as the spec's examples fix it. -/
def joinPath (root name : String) : String :=
  root ++ "/" ++ name

/-- Set a column of a row; consing gives overwrite semantics under
`getCol`. -/
def setCol (r : Row) (c : String) (v : Val) : Row :=
  (c, v) :: r

/-- Append a column name unless already present. -/
def addColumnName (cols : List String) (c : String) : List String :=
  if c ∈ cols then cols else cols ++ [c]

/-- Modelled from the spec: `_validate_and_update_image_paths` of the engine
(missing from src).  If the frame has a `uuid` column, `image_path` is
`join(image_root, uuid + ".jpg")`; else if it has a `filename` column,
`image_path` is `join(image_root, filename)`; else the frame is returned
untouched.  A null identifier yields a null path. -/
def validate_and_update_image_paths (df : DF) (imageRoot : String) : DF :=
  if uuidCol ∈ df.columns then
    { columns := addColumnName df.columns imagePathCol
      rows := df.rows.map (fun r =>
        setCol r imagePathCol ((getCol r uuidCol).map (fun u => joinPath imageRoot (u ++ ".jpg")))) }
  else if filenameCol ∈ df.columns then
    { columns := addColumnName df.columns imagePathCol
      rows := df.rows.map (fun r =>
        setCol r imagePathCol ((getCol r filenameCol).map (fun f => joinPath imageRoot f))) }
  else df

/-- Resource error of the Source Loader: no existing table and no existing
raw-record directory. -/
inductive LoadError where
  | sourceNotFound
deriving DecidableEq

/-- The columns actually read for a table with schema `schema` under an
optional explicit request: the best-effort intersection, in request order;
without a request, all columns. -/
def projectColumns (schema : List String) (req : Option (List String)) : List String :=
  match req with
  | none => schema
  | some cs => cs.filter (fun c => schema.contains c)

/-- Project a frame onto the best-effort intersection of its schema with an
optional requested column list. -/
def projectDF (df : DF) (req : Option (List String)) : DF :=
  let cols := projectColumns df.columns req
  { columns := cols, rows := df.rows.map (alignRow cols) }

/-- Modelled from the spec: `_load_single_dataset` for a precomputed table
(missing from src).  `table` is the discovered table (`none` when the
declared path resolves to no existing file, the one failing case); a
requested column absent from the schema is silently dropped, never an
error. -/
def load_single_dataset (table : Option DF) (req : Option (List String)) :
    Except LoadError DF :=
  match table with
  | none => .error LoadError.sourceNotFound
  | some df => .ok (projectDF df req)

/-! # Concrete inputs used by witnesses and counterexamples -/

/-- Task label of the spec's proportion example. -/
def labelA : String := "A"

/-- Task label of the spec's proportion example. -/
def labelB : String := "B"

/-- Subtask label of the spec's proportion example. -/
def labelA1 : String := "A1"

/-- Subtask label of the spec's proportion example. -/
def labelA2 : String := "A2"

/-- Subtask label of the spec's proportion example. -/
def labelB1 : String := "B1"

/-- Identifier column of the weight-mixing example. -/
def idCol : String := "id"

/-- The spec's 100-row proportion example: 80 task-A rows split 40/40 into
subtasks A1/A2, and 20 task-B rows with subtask B1. -/
def proportionExampleRows : List Row :=
  List.replicate 40 [(taskCol, some labelA), (subtaskCol, some labelA1)]
    ++ List.replicate 40 [(taskCol, some labelA), (subtaskCol, some labelA2)]
    ++ List.replicate 20 [(taskCol, some labelB), (subtaskCol, some labelB1)]

/-- The spec's proportion targets: tasks A at 0.6 and B at 0.4, subtasks of A
at 0.5 each. -/
def proportionExampleTP : TaskProportionConfig :=
  { task_proportions := [(labelA, mkRat 3 5), (labelB, mkRat 2 5)]
    subtask_proportions := [(labelA, [(labelA1, mkRat 1 2), (labelA2, mkRat 1 2)])] }

/-- A 100-row frame for the weight-mixing example. -/
def df100 : DF :=
  { columns := [idCol], rows := List.replicate 100 [(idCol, some idCol)] }

/-- A 200-row frame for the weight-mixing example. -/
def df200 : DF :=
  { columns := [idCol], rows := List.replicate 200 [(idCol, some idCol)] }

/-- The spec's weight example: a 100-row source at weight 1.0 mixed with a
200-row source at weight 3.0. -/
def weightExampleSources : List SourceData :=
  [⟨"d1", mkRat 1 1, [], df100⟩, ⟨"d2", mkRat 3 1, [], df200⟩]

/-- Column of the first schema-union example source. -/
def colQ : String := "q"

/-- Column of the second schema-union example source. -/
def colZ : String := "z"

/-- One-row frame carrying only column `q`. -/
def c3dfQ : DF := { columns := [colQ], rows := [[(colQ, some colQ)]] }

/-- One-row frame carrying only column `z`. -/
def c3dfZ : DF := { columns := [colZ], rows := [[(colZ, some colZ)]] }

/-- Name of the first schema-union example source. -/
def nameS1 : String := "s1"

/-- Name of the second schema-union example source. -/
def nameS2 : String := "s2"

/-- Two sources with disjoint requested columns, for the schema-union
example. -/
def c3sources : List SourceData :=
  [⟨nameS1, mkRat 1 1, [colQ], c3dfQ⟩, ⟨nameS2, mkRat 1 1, [colZ], c3dfZ⟩]

/-- Image root of the spec's uuid path example. -/
def rootImages : String := "/root/images"

/-- Image root of the spec's filename path example. -/
def rootImgs : String := "/imgs"

/-- The identifier value of the spec's uuid path example. -/
def uuidA : String := "a"

/-- The filename value of the spec's filename path example. -/
def fileXPng : String := "x.png"

/-- Frame with a `uuid` column holding the value `a`, as in the spec's path
example. -/
def dfUuidExample : DF :=
  { columns := [uuidCol], rows := [[(uuidCol, some uuidA)]] }

/-- Frame with a `filename` column holding `x.png`, as in the spec's path
example. -/
def dfFilenameExample : DF :=
  { columns := [filenameCol], rows := [[(filenameCol, some fileXPng)]] }

/-- Frame with both a `uuid` and a `filename` column, to exercise
precedence. -/
def dfBothIdExample : DF :=
  { columns := [uuidCol, filenameCol]
    rows := [[(uuidCol, some uuidA), (filenameCol, some fileXPng)]] }

/-- The missing column requested in the loader fallback test. -/
def missingCol : String := "missing_col"

/-- The loader fallback example table: columns `uuid`, `task`, `subtask`. -/
def c5df : DF :=
  { columns := [uuidCol, taskCol, subtaskCol]
    rows := [[(uuidCol, some uuidCol), (taskCol, some taskCol), (subtaskCol, some subtaskCol)]] }

/-- A freshly constructed engine: nothing loaded, nothing mixed. -/
def freshEngine : Engine :=
  { seed := 42, globalColumns := [] }

/-- A dataset source descriptor declaring both a parquet path and a JSON
directory. -/
def dcBoth : DatasetConfig :=
  { name := "both", image_path := "/imgs"
    parquet_path := some "/meta.parquet", json_dir := some "/json" }

/-- A dataset source descriptor declaring neither a parquet path nor a JSON
directory. -/
def dcNeither : DatasetConfig :=
  { name := "neither", image_path := "/imgs" }

/-- A task-proportion configuration whose task mapping sums to 1.1 and which
declares no subtask families. -/
def tpcTaskOnly : TaskProportionConfig :=
  { task_proportions := [(labelA, mkRat 7 10), (labelB, mkRat 2 5)] }

/-- A task-proportion configuration declaring the subtask family `A` with an
empty inner mapping. -/
def tpcEmptyFamily : TaskProportionConfig :=
  { subtask_proportions := [(labelA, [])] }

/-- A task-proportion configuration whose subtask family `A` sums to 0.7. -/
def tpcBadFamily : TaskProportionConfig :=
  { subtask_proportions := [(labelA, [(labelA1, mkRat 7 10)])] }

/-- A raw-ingestion configuration leaving `image_path_mode` unset with the
default `auto_absolute_path` and an images root. -/
def inputExample : InputConfig :=
  { json_dir := "/json", images_root := some "/images" }

/-- The same raw-ingestion configuration without an images root. -/
def inputNoRoot : InputConfig :=
  { json_dir := "/json" }

/-- Two rows for the downsampling witness. -/
def twoRows : List Row :=
  [[(idCol, some labelA)], [(idCol, some labelB)]]

/-! # Helper lemmas -/

/-- `roundMul` is the spec's `round(n * w)`, i.e. `⌊n * w + 1/2⌋`, for
positive weights. -/
theorem roundMul_eq_floor (n : ℕ) (w : ℚ) (hw : 0 < w) :
    (roundMul n w : ℤ) = ⌊(n : ℚ) * w + 1/2⌋ := by
  obtain ⟨N, D, hD, hred⟩ := w
  have hNpos : (0:ℤ) < N := by
    have := Rat.num_pos.mpr hw
    simpa using this
  have hN : (N.toNat : ℤ) = N := Int.toNat_of_nonneg hNpos.le
  have hDQ : ((D:ℚ)) ≠ 0 := by exact_mod_cast hD
  have hq : (n : ℚ) * (⟨N, D, hD, hred⟩ : ℚ) + 1/2
      = (((2 * n * N.toNat + D : ℕ) : ℤ) : ℚ) / (((2 * D : ℕ) : ℤ) : ℚ) := by
    rw [Rat.mk'_eq_divInt, Rat.divInt_eq_div]
    push_cast [hN]
    field_simp
    ring
  rw [hq]
  have hfl := Rat.floor_intCast_div_natCast ((2 * n * N.toNat + D : ℕ) : ℤ) (2 * D)
  push_cast at hfl ⊢
  rw [hfl]
  simp [roundMul, Int.natCast_div]

/-- For a weight strictly below 1 the resampling target never exceeds the
source's row count. -/
theorem roundMul_le_of_lt_one (n : ℕ) (w : ℚ) (hw0 : 0 < w) (hw1 : w < 1) :
    roundMul n w ≤ n := by
  have hfl := roundMul_eq_floor n w hw0
  have hle : (n : ℚ) * w + 1/2 ≤ (n : ℚ) + 1/2 := by
    have hn0 : (0:ℚ) ≤ (n : ℚ) := by positivity
    nlinarith [mul_le_of_le_one_right hn0 hw1.le]
  have hfloor : ⌊(n : ℚ) * w + 1/2⌋ ≤ ⌊(n : ℚ) + 1/2⌋ := Int.floor_le_floor hle
  have hnn : ⌊(n : ℚ) + 1/2⌋ = (n : ℤ) := by
    rw [show (n : ℚ) + 1/2 = 1/2 + ((n : ℤ) : ℚ) by push_cast; ring]
    rw [Int.floor_add_int]
    norm_num
  have hz : (roundMul n w : ℤ) ≤ (n : ℤ) := by
    rw [hfl]
    rw [hnn] at hfloor
    exact hfloor
  exact_mod_cast hz

/-- An empty source always has the resampling target 0. -/
theorem roundMul_zero (w : ℚ) : roundMul 0 w = 0 := by
  have hpos : 0 < w.den := Nat.pos_of_ne_zero w.den_nz
  have h : 2 * 0 * w.num.toNat + w.den = w.den := by ring
  rw [roundMul, h]
  exact Nat.div_eq_of_lt (by omega)

/-- The with-replacement sample has exactly the requested length. -/
theorem length_sampleWithReplacement (seed k : ℕ) (xs : List Row) :
    (sampleWithReplacement seed k xs).length = k := by
  simp [sampleWithReplacement]

/-- Every drawn row of a with-replacement sample over a non-empty list is an
original row. -/
theorem mem_of_mem_sampleWithReplacement (seed k : ℕ) (xs : List Row) (hxs : xs ≠ [])
    (r : Row) (hr : r ∈ sampleWithReplacement seed k xs) : r ∈ xs := by
  simp only [sampleWithReplacement, List.mem_map, List.mem_range] at hr
  obtain ⟨i, _, rfl⟩ := hr
  have hlen : 0 < xs.length := List.length_pos.mpr hxs
  have hidx : sampleIndex seed i xs.length < xs.length := Nat.mod_lt _ hlen
  rw [List.getD_eq_getElem xs [] hidx]
  exact List.getElem_mem hidx

/-- The without-replacement sample selects `min(k, len(xs))` rows. -/
theorem length_sampleWithoutReplacement (seed k : ℕ) (xs : List Row) :
    (sampleWithoutReplacement seed k xs).length = min k xs.length := by
  simp [sampleWithoutReplacement]

/-- The without-replacement sample uses each original row at most once. -/
theorem sublist_sampleWithoutReplacement (seed k : ℕ) (xs : List Row) :
    (sampleWithoutReplacement seed k xs).Sublist xs :=
  List.take_sublist k xs

/-- Row lookup over an aligned row: requested columns read through to the
underlying row, anything else is null. -/
theorem getCol_alignRow (cols : List String) (r : Row) (c : String) :
    getCol (alignRow cols r) c = if c ∈ cols then getCol r c else none := by
  induction cols with
  | nil => simp [alignRow, getCol]
  | cons c' cs ih =>
    by_cases hc : c' = c
    · subst hc
      simp [alignRow, getCol]
    · have hstep : getCol (alignRow (c' :: cs) r) c = getCol (alignRow cs r) c := by
        simp [alignRow, getCol, hc]
      have hcc : ¬ c = c' := fun h => hc h.symm
      rw [hstep, ih]
      simp [List.mem_cons, hcc]

/-- The provenance tag wins for the provenance column. -/
theorem getCol_tagSource_self (name : String) (r : Row) :
    getCol (tagSource name r) sourceDatasetCol = some name := by
  simp [tagSource, getCol]

/-- The provenance tag leaves every other column unchanged. -/
theorem getCol_tagSource_ne (name c : String) (r : Row) (h : c ≠ sourceDatasetCol) :
    getCol (tagSource name r) c = getCol r c := by
  have hh : ¬ sourceDatasetCol = c := fun hh => h hh.symm
  simp [tagSource, getCol, hh]

/-- A column a row does not carry reads as null. -/
theorem getCol_eq_none_of_not_mem (r : Row) (c : String) (h : c ∉ r.map Prod.fst) :
    getCol r c = none := by
  induction r with
  | nil => rfl
  | cons p r ih =>
    simp only [List.map_cons, List.mem_cons, not_or] at h
    have h1 : ¬ p.1 = c := fun hh => h.1 hh.symm
    simp [getCol, h1, ih h.2]

/-- Setting a column makes it read back. -/
theorem getCol_setCol_self (r : Row) (c : String) (v : Val) :
    getCol (setCol r c v) c = v := by
  simp [setCol, getCol]

/-- Membership in the union of the requested columns. -/
theorem mem_unionColumns (g : List String) (ss : List SourceData) (c : String) :
    c ∈ unionColumns g ss ↔ c ∈ g ∨ ∃ s ∈ ss, c ∈ s.columns := by
  simp [unionColumns, List.mem_dedup, List.mem_append, List.mem_flatMap]

/-- Membership after forcing the provenance column in. -/
theorem mem_ensureSourceColumn (cols : List String) (c : String) :
    c ∈ ensureSourceColumn cols ↔ c ∈ cols ∨ c = sourceDatasetCol := by
  by_cases h : sourceDatasetCol ∈ cols
  · simp only [ensureSourceColumn, if_pos h]
    constructor
    · exact Or.inl
    · rintro (hc | rfl)
      · exact hc
      · exact h
  · simp [ensureSourceColumn, if_neg h, List.mem_append]

/-! # Claim C7 -/

/-- C7 counterexample: the claim says every declared subtask family must sum
to 1.0 within 1e-6 or the configuration is rejected, but a family declared
with an empty inner mapping sums to 0 — outside the tolerance — and is
accepted: `_check_proportions` skips empty mappings. -/
theorem check_proportions_empty_family_counterexample :
    check_proportions tpcEmptyFamily = .ok tpcEmptyFamily
      ∧ tpcEmptyFamily.subtask_proportions = [(labelA, [])]
      ∧ 1/1000000 < |famSum (labelA, ([] : List (String × ℚ))) - 1| := by
  refine ⟨rfl, rfl, ?_⟩
  norm_num [famSum]

/-- C7 (amended): at configuration-validation time, every declared subtask
family with a NON-EMPTY inner mapping must have fractions summing to 1.0
within 1e-6 or the configuration is rejected with an error (a family with an
empty inner mapping is skipped); the task-proportion mapping itself has no
sum constraint — the task mapping `A ↦ 0.7, B ↦ 0.4` is accepted. -/
theorem check_proportions_subtask_families (c : TaskProportionConfig) :
    (check_proportions c = .ok c ↔
      ∀ fam ∈ c.subtask_proportions, fam.2 ≠ [] → |famSum fam - 1| ≤ 1/1000000)
    ∧ ((∃ fam ∈ c.subtask_proportions, fam.2 ≠ [] ∧ 1/1000000 < |famSum fam - 1|) →
      ∃ t, check_proportions c = .error (CfgError.subtaskSumNotOne t))
    ∧ check_proportions tpcTaskOnly = .ok tpcTaskOnly := by
  refine ⟨?_, ?_, rfl⟩
  · cases hf : c.subtask_proportions.find? famViolates with
    | none =>
      rw [List.find?_eq_none] at hf
      simp only [check_proportions]
      rw [show c.subtask_proportions.find? famViolates = none from
        List.find?_eq_none.mpr hf]
      constructor
      · intro _ fam hfam hne
        have hv := hf fam hfam
        simp only [famViolates, decide_eq_true_eq, not_and, ne_eq] at hv
        exact le_of_not_lt (hv hne)
      · intro _
        rfl
    | some fam =>
      have hmem := List.mem_of_find?_eq_some hf
      have hp := List.find?_some hf
      simp only [famViolates, decide_eq_true_eq] at hp
      simp only [check_proportions, hf]
      constructor
      · intro h
        exact absurd h (by simp)
      · intro hall
        exact absurd (hall fam hmem hp.1) (not_le.mpr hp.2)
  · intro hex
    cases hf : c.subtask_proportions.find? famViolates with
    | none =>
      exfalso
      rw [List.find?_eq_none] at hf
      obtain ⟨fam, hfam, hne, hgt⟩ := hex
      have hv := hf fam hfam
      simp only [famViolates, decide_eq_true_eq, not_and, ne_eq] at hv
      exact absurd hgt (not_lt.mpr (le_of_not_lt (hv hne)))
    | some fam =>
      exact ⟨fam.1, by simp [check_proportions, hf]⟩

/-- C7 witness: the amended theorem applied to a configuration whose subtask
family `A` is non-empty and sums to 0.7 yields a rejection. -/
theorem check_proportions_subtask_families_witness :
    ∃ t, check_proportions tpcBadFamily = .error (CfgError.subtaskSumNotOne t) := by
  refine (check_proportions_subtask_families tpcBadFamily).2.1
    ⟨(labelA, [(labelA1, mkRat 7 10)]), ?_, ?_, ?_⟩
  · simp [tpcBadFamily]
  · simp
  · norm_num [famSum, Rat.mkRat_eq_div]
    rw [abs_of_pos (by norm_num : (0:ℚ) < 3/10)]
    norm_num

/-! # Claim C8 -/

/-- C8 counterexample: the claim says validation rejects a descriptor that
declares both a precomputed table path and a raw-record directory, but
`_check_source` accepts such a descriptor: it only rejects when both are
absent. -/
theorem check_source_both_counterexample :
    validateDatasetConfig dcBoth = .ok dcBoth
      ∧ dcBoth.parquet_path ≠ none ∧ dcBoth.json_dir ≠ none := by
  refine ⟨rfl, by simp [dcBoth], by simp [dcBoth]⟩

/-- C8 (amended): every dataset source descriptor must declare at least one
of a precomputed table path and a raw-record directory: validation rejects a
descriptor declaring neither as a configuration error, while a descriptor
declaring both passes validation unchanged. -/
theorem check_source_requirement (c : DatasetConfig) (hw : 0 < c.weight) :
    (validateDatasetConfig c = .error CfgError.missingSource ↔
      (c.parquet_path = none ∧ c.json_dir = none))
    ∧ ((c.parquet_path ≠ none ∨ c.json_dir ≠ none) → validateDatasetConfig c = .ok c) := by
  have hwle : ¬ c.weight ≤ 0 := not_le.mpr hw
  by_cases hsrc : c.parquet_path = none ∧ c.json_dir = none
  · constructor
    · simp [validateDatasetConfig, weight_must_be_positive, hwle, check_source, hsrc]
    · intro hne
      rcases hne with h | h
      · exact absurd hsrc.1 h
      · exact absurd hsrc.2 h
  · constructor
    · simp [validateDatasetConfig, weight_must_be_positive, hwle, check_source, hsrc]
    · intro _
      simp [validateDatasetConfig, weight_must_be_positive, hwle, check_source, hsrc]

/-- C8 witness: the amended theorem applied to a descriptor declaring
neither source yields the missing-source configuration error. -/
theorem check_source_requirement_witness :
    (0:ℚ) < dcNeither.weight
      ∧ validateDatasetConfig dcNeither = .error CfgError.missingSource := by
  have h0 : (0:ℚ) < dcNeither.weight := by norm_num [dcNeither]
  exact ⟨h0, (check_source_requirement dcNeither h0).1.mpr ⟨rfl, rfl⟩⟩

/-! # Claim C9 -/

/-- C9: constructing the top-level configuration from a mapping fails with
an error exactly when some key is not among the declared fields of
`EndoFactoryConfig` — unknown top-level keys are rejected, never silently
ignored. -/
theorem extra_keys_rejected (keys : List String) :
    (∃ k ∈ keys, k ∉ endoFactoryFieldNames) ↔ ∃ e, checkExtraKeys keys = .error e := by
  constructor
  · rintro ⟨k, hk, hnot⟩
    cases hf : keys.find? (fun k => !(endoFactoryFieldNames.contains k)) with
    | none =>
      exfalso
      rw [List.find?_eq_none] at hf
      have := hf k hk
      simp only [Bool.not_eq_true', Bool.not_eq_false] at this
      exact hnot (by simpa using this)
    | some k' =>
      refine ⟨CfgError.extraField k', ?_⟩
      unfold checkExtraKeys
      rw [hf]
  · rintro ⟨e, he⟩
    cases hf : keys.find? (fun k => !(endoFactoryFieldNames.contains k)) with
    | none =>
      exfalso
      unfold checkExtraKeys at he
      rw [hf] at he
      simp at he
    | some k' =>
      refine ⟨k', List.mem_of_find?_eq_some hf, ?_⟩
      have hp := List.find?_some hf
      simpa using hp

/-- C9 witness: a mapping with the unknown key `bogus` is rejected. -/
theorem extra_keys_rejected_witness :
    ∃ e, checkExtraKeys ["datasets", "bogus"] = .error e :=
  (extra_keys_rejected _).mp ⟨"bogus", by decide, by decide⟩

/-! # Claim C10 -/

/-- C10: every successfully validated raw-ingestion configuration has a
non-`none` `image_path_mode`; when the mode was omitted it is inferred as
`join_id` exactly when `auto_absolute_path` is literally `True` and
`use_existing` otherwise; whenever the resulting mode is `join_id` the
images root is present, and validation fails with an error when it is
absent in that case. -/
theorem infer_and_validate_paths_modes (c : InputConfig) :
    (∀ r, infer_and_validate_paths c = .ok r →
      r.image_path_mode ≠ none
      ∧ (c.image_path_mode = none →
          r.image_path_mode =
            some (if c.auto_absolute_path = some true then ImagePathMode.join_id
                  else ImagePathMode.use_existing))
      ∧ (r.image_path_mode = some ImagePathMode.join_id → r.images_root ≠ none))
    ∧ (c.image_path_mode = none → c.auto_absolute_path = some true → c.images_root = none →
      infer_and_validate_paths c = .error CfgError.imagesRootRequired) := by
  constructor
  · intro r hr
    by_cases hm : c.image_path_mode = none
    · by_cases ha : c.auto_absolute_path = some true
      · by_cases hroot : c.images_root = none
        · exfalso
          simp [infer_and_validate_paths, hm, ha, hroot] at hr
        · have hr' : r = { c with auto_absolute_path := some true, image_path_mode := some ImagePathMode.join_id } := by
            simp [infer_and_validate_paths, hm, ha, hroot] at hr
            exact hr.symm
          refine ⟨?_, ?_, ?_⟩
          · rw [hr']
            simp
          · intro _
            rw [hr']
            simp [ha]
          · intro _
            rw [hr']
            simpa using hroot
      · have hr' : r = { c with image_path_mode := some ImagePathMode.use_existing } := by
          simp [infer_and_validate_paths, hm, ha] at hr
          exact hr.symm
        refine ⟨?_, ?_, ?_⟩
        · rw [hr']
          simp
        · intro _
          rw [hr']
          simp [ha]
        · intro hj
          rw [hr'] at hj
          simp at hj
    · cases hmm : c.image_path_mode with
      | none => exact absurd hmm hm
      | some m =>
        cases m with
        | join_id =>
          by_cases hroot : c.images_root = none
          · exfalso
            simp [infer_and_validate_paths, hmm, hroot] at hr
          · have hr' : r = c := by
              simp [infer_and_validate_paths, hmm, hroot] at hr
              exact hr.symm
            refine ⟨?_, ?_, ?_⟩
            · rw [hr', hmm]
              simp
            · intro h
              simp at h
            · intro _
              rw [hr']
              exact hroot
        | use_existing =>
          have hr' : r = c := by
            simp [infer_and_validate_paths, hmm] at hr
            exact hr.symm
          refine ⟨?_, ?_, ?_⟩
          · rw [hr', hmm]
            simp
          · intro h
            simp at h
          · intro hj
            rw [hr', hmm] at hj
            simp at hj
  · intro hm ha hroot
    simp [infer_and_validate_paths, hm, ha, hroot]

/-- C10 witness: validating a configuration with the mode omitted, the
default absolute-path flag and an images root succeeds, infers `join_id`,
and the result carries a non-`none` mode and images root. -/
theorem infer_and_validate_paths_modes_witness :
    ∃ r, infer_and_validate_paths inputExample = .ok r
      ∧ r.image_path_mode ≠ none ∧ r.images_root ≠ none := by
  refine ⟨{ inputExample with image_path_mode := some ImagePathMode.join_id }, rfl, ?_, ?_⟩
  · exact ((infer_and_validate_paths_modes inputExample).1 _ rfl).1
  · exact ((infer_and_validate_paths_modes inputExample).1 _ rfl).2.2 rfl

/-! # Claim C1 -/

set_option maxRecDepth 100000 in
/-- C1: per loaded source with `n` rows and weight `w`, the Mixing Engine's
contribution is the source's rows unchanged when `w == 1`; `round(n * w)`
rows each drawn from the source (with replacement) when `w > 1`; and
`round(n * w)` distinct original rows (a sublist, hence without replacement)
when `0 < w < 1` — where `round` is `⌊n * w + 1/2⌋`.  Mixing a 100-row
source at weight 1.0 with a 200-row source at weight 3.0 yields exactly 700
rows. -/
theorem mix_weight_contribution :
    (∀ (seed : ℕ) (w : ℚ) (rows : List Row), w = 1 →
      resampleByWeight seed w rows = rows)
    ∧ (∀ (seed : ℕ) (w : ℚ) (rows : List Row), 1 < w →
      (resampleByWeight seed w rows).length = roundMul rows.length w
      ∧ (roundMul rows.length w : ℤ) = ⌊(rows.length : ℚ) * w + 1/2⌋
      ∧ ∀ r ∈ resampleByWeight seed w rows, r ∈ rows)
    ∧ (∀ (seed : ℕ) (w : ℚ) (rows : List Row), 0 < w → w < 1 →
      (resampleByWeight seed w rows).length = roundMul rows.length w
      ∧ (roundMul rows.length w : ℤ) = ⌊(rows.length : ℚ) * w + 1/2⌋
      ∧ (resampleByWeight seed w rows).Sublist rows)
    ∧ (mixDatasets 42 [idCol] weightExampleSources).rows.length = 700 := by
  refine ⟨?_, ?_, ?_, by decide⟩
  · intro seed w rows hw
    simp [resampleByWeight, hw]
  · intro seed w rows hw
    have hne : ¬ w = 1 := by
      intro he
      rw [he] at hw
      exact lt_irrefl 1 hw
    have h0 : (0:ℚ) < w := lt_trans zero_lt_one hw
    refine ⟨?_, roundMul_eq_floor _ _ h0, ?_⟩
    · simp [resampleByWeight, hne, hw, length_sampleWithReplacement]
    · intro r hr
      rcases eq_or_ne rows [] with h0r | h0r
      · subst h0r
        rw [resampleByWeight, if_neg hne, if_pos hw] at hr
        simp only [List.length_nil, roundMul_zero] at hr
        simp [sampleWithReplacement] at hr
      · rw [resampleByWeight, if_neg hne, if_pos hw] at hr
        exact mem_of_mem_sampleWithReplacement _ _ _ h0r r hr
  · intro seed w rows hw0 hw1
    have hne : ¬ w = 1 := ne_of_lt hw1
    have hnlt : ¬ 1 < w := not_lt.mpr hw1.le
    refine ⟨?_, roundMul_eq_floor _ _ hw0, ?_⟩
    · rw [resampleByWeight, if_neg hne, if_neg hnlt, length_sampleWithoutReplacement]
      exact Nat.min_eq_left (roundMul_le_of_lt_one _ _ hw0 hw1)
    · rw [resampleByWeight, if_neg hne, if_neg hnlt]
      exact sublist_sampleWithoutReplacement _ _ _

/-- C1 witness: the trichotomy applied to a concrete 2-row source at weights
1, 3 and 1/2. -/
theorem mix_weight_contribution_witness :
    resampleByWeight 7 1 twoRows = twoRows
    ∧ (resampleByWeight 7 (mkRat 3 1) twoRows).length = roundMul twoRows.length (mkRat 3 1)
    ∧ (resampleByWeight 7 (mkRat 1 2) twoRows).length = roundMul twoRows.length (mkRat 1 2)
    ∧ (resampleByWeight 7 (mkRat 1 2) twoRows).Sublist twoRows := by
  refine ⟨mix_weight_contribution.1 7 1 twoRows rfl, ?_, ?_, ?_⟩
  · exact (mix_weight_contribution.2.1 7 (mkRat 3 1) twoRows (by decide)).1
  · exact (mix_weight_contribution.2.2.1 7 (mkRat 1 2) twoRows (by decide) (by decide)).1
  · exact (mix_weight_contribution.2.2.1 7 (mkRat 1 2) twoRows (by decide) (by decide)).2.2

/-! # Claim C2 -/

set_option maxRecDepth 100000 in
/-- C2: the Proportion Sampler's task-level phase selects, per declared task
label `t` with fraction `p`, exactly `min(round(n * p), count(task == t))`
rows without replacement from that task's rows (an absent label contributes
zero rows, with no error possible); the subtask-level phase does likewise
per declared `(t, s)` pair with fraction `q`; the result is the
concatenation of the two phases without deduplication.  On the spec's
100-row example the output has 140 task-A rows, 20 task-B rows and 160 rows
in total. -/
theorem apply_task_proportions_spec :
    (∀ (seed : ℕ) (rows : List Row) (t : String) (p : ℚ),
      (sampleWithoutReplacement seed (roundMul rows.length p) (taskRows rows t)).length
        = min (roundMul rows.length p) (taskRows rows t).length
      ∧ (sampleWithoutReplacement seed (roundMul rows.length p) (taskRows rows t)).Sublist
          (taskRows rows t)
      ∧ (taskRows rows t = [] →
          sampleWithoutReplacement seed (roundMul rows.length p) (taskRows rows t) = []))
    ∧ (∀ (seed : ℕ) (rows : List Row) (props : List (String × ℚ)),
      taskPhase seed rows props = props.flatMap (fun tp =>
        sampleWithoutReplacement seed (roundMul rows.length tp.2) (taskRows rows tp.1)))
    ∧ (∀ (seed : ℕ) (rows : List Row) (t s : String) (q : ℚ),
      (sampleWithoutReplacement seed (roundMul rows.length q) (subtaskRows rows t s)).length
        = min (roundMul rows.length q) (subtaskRows rows t s).length
      ∧ (sampleWithoutReplacement seed (roundMul rows.length q) (subtaskRows rows t s)).Sublist
          (subtaskRows rows t s)
      ∧ (subtaskRows rows t s = [] →
          sampleWithoutReplacement seed (roundMul rows.length q) (subtaskRows rows t s) = []))
    ∧ (∀ (seed : ℕ) (rows : List Row) (props : List (String × List (String × ℚ))),
      subtaskPhase seed rows props = props.flatMap (fun fam => fam.2.flatMap (fun sp =>
        sampleWithoutReplacement seed (roundMul rows.length sp.2) (subtaskRows rows fam.1 sp.1))))
    ∧ (∀ (seed : ℕ) (rows : List Row) (tp : TaskProportionConfig),
      apply_task_proportions seed rows tp
        = taskPhase seed rows tp.task_proportions ++ subtaskPhase seed rows tp.subtask_proportions)
    ∧ ((apply_task_proportions 7 proportionExampleRows proportionExampleTP).filter
        (fun r => getCol r taskCol == some labelA)).length = 140
    ∧ ((apply_task_proportions 7 proportionExampleRows proportionExampleTP).filter
        (fun r => getCol r taskCol == some labelB)).length = 20
    ∧ (apply_task_proportions 7 proportionExampleRows proportionExampleTP).length = 160 := by
  refine ⟨?_, fun _ _ _ => rfl, ?_, fun _ _ _ => rfl, fun _ _ _ => rfl,
    by decide, by decide, by decide⟩
  · intro seed rows t p
    refine ⟨length_sampleWithoutReplacement _ _ _, sublist_sampleWithoutReplacement _ _ _, ?_⟩
    intro h
    simp [sampleWithoutReplacement, h]
  · intro seed rows t s q
    refine ⟨length_sampleWithoutReplacement _ _ _, sublist_sampleWithoutReplacement _ _ _, ?_⟩
    intro h
    simp [sampleWithoutReplacement, h]

/-- C2 witness: a label absent from the example dataset (here `B1` used as a
task label) contributes zero rows to the task-level phase. -/
theorem apply_task_proportions_spec_witness :
    taskRows proportionExampleRows labelB1 = []
    ∧ sampleWithoutReplacement 7 (roundMul proportionExampleRows.length (mkRat 3 5))
        (taskRows proportionExampleRows labelB1) = [] := by
  refine ⟨by decide, ?_⟩
  exact (apply_task_proportions_spec.1 7 proportionExampleRows labelB1 (mkRat 3 5)).2.2 (by decide)

/-! # Claim C3 -/

/-- C3: the Mixed Dataset's column set is the union of the declared
requested columns (global plus per-source) together with the always-present
`source_dataset` column; each mixed row derived from an original row `o` of
source `s` carries `source_dataset = s.name`, reads every other requested
column through to `o`, and reads null for any requested column `o` does not
carry. -/
theorem mix_schema_union (seed : ℕ) (g : List String) (ss : List SourceData) :
    (mixDatasets seed g ss).columns = ensureSourceColumn (unionColumns g ss)
    ∧ (∀ c, c ∈ (mixDatasets seed g ss).columns ↔
        (c ∈ g ∨ ∃ s ∈ ss, c ∈ s.columns) ∨ c = sourceDatasetCol)
    ∧ (mixDatasets seed g ss).rows
        = ss.flatMap (sourceContribution seed (ensureSourceColumn (unionColumns g ss)))
    ∧ (∀ s ∈ ss, ∀ o ∈ resampleByWeight seed s.weight s.df.rows,
        getCol (alignRow (ensureSourceColumn (unionColumns g ss)) (tagSource s.name o))
            sourceDatasetCol = some s.name
        ∧ (∀ c ∈ ensureSourceColumn (unionColumns g ss), c ≠ sourceDatasetCol →
            getCol (alignRow (ensureSourceColumn (unionColumns g ss)) (tagSource s.name o)) c
              = getCol o c)
        ∧ (∀ c ∈ ensureSourceColumn (unionColumns g ss), c ≠ sourceDatasetCol →
            c ∉ o.map Prod.fst →
            getCol (alignRow (ensureSourceColumn (unionColumns g ss)) (tagSource s.name o)) c
              = none)) := by
  refine ⟨rfl, ?_, rfl, ?_⟩
  · intro c
    rw [show (mixDatasets seed g ss).columns = ensureSourceColumn (unionColumns g ss) from rfl]
    rw [mem_ensureSourceColumn, mem_unionColumns]
  · intro s _ o _
    have hsd : sourceDatasetCol ∈ ensureSourceColumn (unionColumns g ss) :=
      (mem_ensureSourceColumn _ _).mpr (Or.inr rfl)
    refine ⟨?_, ?_, ?_⟩
    · rw [getCol_alignRow, if_pos hsd, getCol_tagSource_self]
    · intro c hc hne
      rw [getCol_alignRow, if_pos hc, getCol_tagSource_ne _ _ _ hne]
    · intro c hc hne hmem
      rw [getCol_alignRow, if_pos hc, getCol_tagSource_ne _ _ _ hne]
      exact getCol_eq_none_of_not_mem _ _ hmem

/-- C3 witness: mixing the two one-column sources gives the union schema
`q, z, source_dataset`; the mixed row of source `s2` reads its provenance
tag and reads null at the other source's column `q`. -/
theorem mix_schema_union_witness :
    (mixDatasets 0 [] c3sources).columns = [colQ, colZ, sourceDatasetCol]
    ∧ getCol (alignRow (ensureSourceColumn (unionColumns [] c3sources))
        (tagSource nameS2 [(colZ, some colZ)])) sourceDatasetCol = some nameS2
    ∧ getCol (alignRow (ensureSourceColumn (unionColumns [] c3sources))
        (tagSource nameS2 [(colZ, some colZ)])) colQ = none := by
  have h := mix_schema_union 0 [] c3sources
  have h4 := h.2.2.2 ⟨nameS2, mkRat 1 1, [colZ], c3dfZ⟩ (by decide) [(colZ, some colZ)] (by decide)
  exact ⟨by decide, h4.1, h4.2.2 colQ (by decide) (by decide) (by decide)⟩

/-! # Claim C4 -/

/-- C4: with a `uuid` column present the Path Resolver sets each row's
`image_path` to `join(image_root, uuid + ".jpg")` — this branch takes
precedence even when a `filename` column is also present; without `uuid` but
with `filename` it sets `image_path` to `join(image_root, filename)`,
preserving the extension.  Concretely, uuid `a` under `/root/images` yields
`/root/images/a.jpg`, and filename `x.png` under `/imgs` yields
`/imgs/x.png`. -/
theorem image_path_resolution (df : DF) (root : String) :
    (uuidCol ∈ df.columns →
      (validate_and_update_image_paths df root).rows
        = df.rows.map (fun r => setCol r imagePathCol
            ((getCol r uuidCol).map (fun u => joinPath root (u ++ ".jpg")))))
    ∧ (uuidCol ∉ df.columns → filenameCol ∈ df.columns →
      (validate_and_update_image_paths df root).rows
        = df.rows.map (fun r => setCol r imagePathCol
            ((getCol r filenameCol).map (fun f => joinPath root f))))
    ∧ (∀ (r : Row) (v : Val), getCol (setCol r imagePathCol v) imagePathCol = v)
    ∧ ((validate_and_update_image_paths dfUuidExample rootImages).rows.map
        (fun r => getCol r imagePathCol)) = [some ("/root/images/a.jpg")]
    ∧ ((validate_and_update_image_paths dfFilenameExample rootImgs).rows.map
        (fun r => getCol r imagePathCol)) = [some ("/imgs/x.png")]
    ∧ ((validate_and_update_image_paths dfBothIdExample rootImages).rows.map
        (fun r => getCol r imagePathCol)) = [some ("/root/images/a.jpg")] := by
  refine ⟨?_, ?_, ?_, by decide, by decide, by decide⟩
  · intro hu
    simp [validate_and_update_image_paths, hu]
  · intro hu hf
    simp [validate_and_update_image_paths, hu, hf]
  · intro r v
    exact getCol_setCol_self r imagePathCol v

/-- C4 witness: the uuid branch applied to the frame carrying both
identifier columns — uuid precedence. -/
theorem image_path_resolution_witness :
    (validate_and_update_image_paths dfBothIdExample rootImages).rows
      = dfBothIdExample.rows.map (fun r => setCol r imagePathCol
          ((getCol r uuidCol).map (fun u => joinPath rootImages (u ++ ".jpg")))) :=
  (image_path_resolution dfBothIdExample rootImages).1 (by decide)

/-! # Claim C5 -/

/-- C5: loading a present precomputed table with an explicit column list
never fails — a requested column absent from the source schema is silently
dropped (it is not among the loaded columns), and every requested column
that does exist in the source is among the loaded columns. -/
theorem load_fallback_columns (df : DF) (req : List String) :
    load_single_dataset (some df) (some req) = .ok (projectDF df (some req))
    ∧ (∀ c ∈ req, c ∈ df.columns → c ∈ (projectDF df (some req)).columns)
    ∧ (∀ c ∈ req, c ∉ df.columns → c ∉ (projectDF df (some req)).columns)
    ∧ load_single_dataset (some c5df) (some [uuidCol, missingCol])
        = .ok { columns := [uuidCol], rows := [[(uuidCol, some uuidCol)]] } := by
  refine ⟨rfl, ?_, ?_, rfl⟩
  · intro c hc hmem
    simp [projectDF, projectColumns, List.mem_filter, hc, hmem]
  · intro c _ hmem
    simp [projectDF, projectColumns, List.mem_filter, hmem]

/-- C5 witness: requesting `uuid` and `missing_col` from the example table
keeps `uuid` and drops `missing_col`, with no error. -/
theorem load_fallback_columns_witness :
    uuidCol ∈ (projectDF c5df (some [uuidCol, missingCol])).columns
    ∧ missingCol ∉ (projectDF c5df (some [uuidCol, missingCol])).columns := by
  have h := load_fallback_columns c5df [uuidCol, missingCol]
  exact ⟨h.2.1 uuidCol (by decide) (by decide), h.2.2.1 missingCol (by decide) (by decide)⟩

/-! # Claim C6 -/

/-- C6: invoking `mix_datasets` before `load` has populated the per-source
datasets fails with a state error and never returns a success value, and
invoking `export_dataset` before any Mixed Dataset exists likewise fails
with a state error and never returns a success value. -/
theorem state_errors (e : Engine) (p : String) :
    (e.datasets = [] →
      mix_datasets e = .error EngineError.noDatasetsLoaded
      ∧ ∀ x, mix_datasets e ≠ .ok x)
    ∧ (e.mixed = none →
      export_dataset e p = .error EngineError.noMixedDataset
      ∧ ∀ y, export_dataset e p ≠ .ok y) := by
  constructor
  · intro hd
    have hemp : e.datasets.isEmpty = true := by simp [hd]
    constructor
    · simp [mix_datasets, hemp]
    · intro x h
      simp [mix_datasets, hemp] at h
  · intro hm
    constructor
    · simp [export_dataset, hm]
    · intro y h
      simp [export_dataset, hm] at h

/-- C6 witness: a freshly constructed engine rejects both calls with the
respective state errors. -/
theorem state_errors_witness :
    mix_datasets freshEngine = .error EngineError.noDatasetsLoaded
    ∧ export_dataset freshEngine rootImgs = .error EngineError.noMixedDataset := by
  have h := state_errors freshEngine rootImgs
  exact ⟨(h.1 rfl).1, (h.2 rfl).1⟩

end EndoFactory
